import Mathlib

/-
Verification of the `pt` helper package (template loader / next-URL helper).

The Go sources are shallowly embedded below.  Go strings are modelled as
`List Char` (one `Char` per byte; all inputs of interest are ASCII), Go maps
as association lists without duplicate keys, and the external collaborators
(pongo2 template engine, net/http router) as abstract outcome types whose
constructors mirror the distinctions the code makes about them.
-/

set_option autoImplicit false

namespace Pt

/-! ## net/url percent decoding (collaborator of next.go)

`url.QueryUnescape` from the Go standard library, in query-component mode:
a `%` must be followed by two hex digits (otherwise the whole call errors),
`+` decodes to a space, and every other byte is kept as is. -/

/-- Go `ishex`: is `c` an ASCII hex digit? -/
def ishex (c : Char) : Bool :=
  ('0' ≤ c ∧ c ≤ '9') ∨ ('a' ≤ c ∧ c ≤ 'f') ∨ ('A' ≤ c ∧ c ≤ 'F')

/-- Go `unhex`: the value of an ASCII hex digit. -/
def unhex (c : Char) : Nat :=
  if '0' ≤ c ∧ c ≤ '9' then c.toNat - '0'.toNat
  else if 'a' ≤ c ∧ c ≤ 'f' then c.toNat - 'a'.toNat + 10
  else if 'A' ≤ c ∧ c ≤ 'F' then c.toNat - 'A'.toNat + 10
  else 0

/-- Go `url.QueryUnescape`: `none` models the error return (invalid `%`
escape), `some` the successfully decoded byte string. -/
def queryUnescape : List Char → Option (List Char)
  | [] => some []
  | '%' :: a :: b :: rest =>
      if ishex a ∧ ishex b then
        (queryUnescape rest).map (fun t => Char.ofNat (unhex a * 16 + unhex b) :: t)
      else none
  | '%' :: _ => none
  | '+' :: rest => (queryUnescape rest).map (fun t => ' ' :: t)
  | c :: rest => (queryUnescape rest).map (fun t => c :: t)

/-! ## next.go -/

/-- Go `strings.HasPrefix(s, "/")`. -/
def startsWithSlash (s : List Char) : Bool :=
  s.head? = some '/'

/-- `GetNextURL` from next.go, as a function of the two request-derived
values it reads: `queryVal` is `r.URL.Query().Get(NextKey)` and `formVal`
is `r.FormValue(NextKey)` (the form fallback).  Mirrors next.go:37-61:
take the query value, fall back to the form value when empty, return empty
when still empty; otherwise percent-decode — on success the decoded value
must start with `/` (else empty), on decode failure the raw value must
start with `/` (else empty). -/
def GetNextURL (queryVal formVal : List Char) : List Char :=
  let next := if queryVal = [] then formVal else queryVal
  if next = [] then next
  else
    match queryUnescape next with
    | some qnext => if ¬ startsWithSlash qnext then [] else qnext
    | none => if ¬ startsWithSlash next then [] else next

/-- `GetNextURL` as a function of the *raw* (still percent-encoded) value
carried for `NextKey` in the request's query string.  `net/url.ParseQuery`
applies `QueryUnescape` to each value and drops a pair whose unescape
fails (`Query()` discards the error), so `r.URL.Query().Get(NextKey)` is
the unescaped value or `""`. -/
def GetNextURLFromRaw (rawQueryVal formVal : List Char) : List Char :=
  GetNextURL ((queryUnescape rawQueryVal).getD []) formVal

/-! ## render.go: the context merge in Loader.Render

A Go `map[string]interface{}` is modelled as an association list without
duplicate keys, over an arbitrary value type `V`.  `ctxSet` is Go map
assignment, `ctxGet` is Go map lookup. -/

/-- A render context: Go `map[string]interface{}` with values in `V`. -/
abbrev CtxMap (V : Type) := List (String × V)

/-- Go map lookup `m[k]` (with its `ok` bit as `Option`). -/
def ctxGet {V : Type} (m : CtxMap V) (k : String) : Option V :=
  match m with
  | [] => none
  | (k', v) :: rest => if k' = k then some v else ctxGet rest k

/-- Go map assignment `m[k] = v`. -/
def ctxSet {V : Type} (m : CtxMap V) (k : String) (v : V) : CtxMap V :=
  match m with
  | [] => [(k, v)]
  | (k', v') :: rest => if k' = k then (k, v) :: rest else (k', v') :: ctxSet rest k v

/-- The keys of a context map. -/
def ctxKeys {V : Type} (m : CtxMap V) : List String := m.map Prod.fst

/-- The loop `for key := range rctx { ctx[key] = rctx[key] }` from
render.go:145-147. -/
def ctxMerge {V : Type} (ctx rctx : CtxMap V) : CtxMap V :=
  rctx.foldl (fun m kv => ctxSet m kv.1 kv.2) ctx

/-- render.go:139-148: select/merge the default context (`ctx`, the result
of `conf.DefaultCtx`, `none` when no function is configured or it returned
a nil map) with the explicit context `rctx` passed to `Render` (`none` when
the caller passed nil). -/
def mergedCtx {V : Type} (dctxRes rctx : Option (CtxMap V)) : CtxMap V :=
  match dctxRes, rctx with
  | none, some rc => rc
  | none, none => []
  | some dc, some rc => ctxMerge dc rc
  | some dc, none => dc

/-- render.go:150-155: inject `url` and `cachets` only when the key is
absent. -/
def injectDefaults {V : Type} (ctx : CtxMap V) (urlV tsV : V) : CtxMap V :=
  let c1 := if (ctxGet ctx "url").isSome then ctx else ctxSet ctx "url" urlV
  if (ctxGet c1 "cachets").isSome then c1 else ctxSet c1 "cachets" tsV

/-- The effective context `Loader.Render` executes the template with
(render.go:133-155), as a function of the default-context result, the
explicit context, and the two system default values (`r.URL` and
`ld.ts.Unix()`). -/
def buildCtx {V : Type} (dctxRes rctx : Option (CtxMap V)) (urlV tsV : V) : CtxMap V :=
  injectDefaults (mergedCtx dctxRes rctx) urlV tsV

/-! ## render.go: Go map reference semantics

Go maps are reference types: `ctx = rctx` aliases, and `ctx[k] = v` then
mutates the caller's map.  To state this, maps live in a heap (a store of
map values) and `Render`'s context phase is a function on that heap
returning the handle of the map it executed the template with. -/

/-- A heap of context maps; a handle is an index into the store. -/
structure Heap (V : Type) where
  store : List (CtxMap V)

/-- Dereference a map handle. -/
def Heap.read {V : Type} (h : Heap V) (r : Nat) : CtxMap V :=
  (h.store.get? r).getD []

/-- Overwrite the map behind a handle. -/
def Heap.write {V : Type} (h : Heap V) (r : Nat) (m : CtxMap V) : Heap V :=
  ⟨h.store.set r m⟩

/-- Allocate a fresh map (Go `make(map[string]interface{})`). -/
def Heap.alloc {V : Type} (h : Heap V) (m : CtxMap V) : Heap V × Nat :=
  (⟨h.store ++ [m]⟩, h.store.length)

/-- Go map assignment through a handle: mutation in place. -/
def heapCtxSet {V : Type} (h : Heap V) (r : Nat) (k : String) (v : V) : Heap V :=
  h.write r (ctxSet (h.read r) k v)

/-- render.go:150-155 acting on the heap: inject `url` and `cachets` into
the map behind `r` when absent. -/
def heapInject {V : Type} (h : Heap V) (r : Nat) (urlV tsV : V) : Heap V :=
  let h1 := if (ctxGet (h.read r) "url").isSome then h else heapCtxSet h r "url" urlV
  if (ctxGet (h1.read r) "cachets").isSome then h1 else heapCtxSet h1 r "cachets" tsV

/-- The context phase of `Loader.Render` (render.go:133-155) on the heap.
`dctxRef` is the handle of the map returned by `conf.DefaultCtx` (`none`
when no function is configured or it returned nil), `rctxRef` the handle of
the explicit map passed to `Render` (`none` for nil).  Returns the updated
heap and the handle of the map the template is executed with; the switch
mirrors render.go:139-148. -/
def renderBuildCtx {V : Type} (h : Heap V) (dctxRef rctxRef : Option Nat)
    (urlV tsV : V) : Heap V × Nat :=
  match dctxRef, rctxRef with
  | none, some rr => (heapInject h rr urlV tsV, rr)
  | none, none =>
      let p := h.alloc []
      (heapInject p.1 p.2 urlV tsV, p.2)
  | some dr, some rr =>
      let h1 := (h.read rr).foldl (fun hh kv => heapCtxSet hh dr kv.1 kv.2) h
      (heapInject h1 dr urlV tsV, dr)
  | some dr, none => (heapInject h dr urlV tsV, dr)

/-! ## render.go: error routing in Loader.Render

The pongo2 engine is an external collaborator; what `Render` inspects about
its errors is (a) whether the error is a `*pongo2.Error` (`errors.As`) and
(b) whether its `OrigError` satisfies `os.IsNotExist`.  Those distinctions
become constructors. -/

/-- Outcome of template resolution (`FromCache`/`FromFile`),
render.go:112-116: success, a `*pongo2.Error` (carrying whether
`os.IsNotExist(orig.OrigError)` holds), or some other error. -/
inductive ResolveErr : Type
  | pongoErr (origIsNotExist : Bool)
  | otherErr
deriving DecidableEq

/-- Outcome of `tpl.ExecuteWriter` (render.go:159-168) when it fails:
a `*pongo2.Error` or any other error (e.g. a downstream write failure). -/
inductive ExecErr : Type
  | pongo
  | other
deriving DecidableEq

/-- The abstract inputs that determine `Render`'s control flow. -/
structure RenderInput : Type where
  resolveResult : Option ResolveErr
  hasNotFoundHandler : Bool
  execResult : Option ExecErr
deriving DecidableEq

/-- Observable events of one `Render` call, in order. -/
inductive Ev : Type
  | resolveAttempt
  | notFoundCall
  | panicEv
  | ctxBuilt
  | execCall
  | logError
  | done
deriving DecidableEq

/-- The event trace of `Loader.Render` (render.go:108-169): resolution;
on a `*pongo2.Error` whose original error is not-exist, delegate to the
not-found handler or panic; any other resolution error panics via
`pongo2.Must`; on success, build the context, execute, and classify an
execution error as panic (`*pongo2.Error`) or a logged soft failure. -/
def renderTrace (inp : RenderInput) : List Ev :=
  match inp.resolveResult with
  | some (ResolveErr.pongoErr true) =>
      if inp.hasNotFoundHandler then [Ev.resolveAttempt, Ev.notFoundCall]
      else [Ev.resolveAttempt, Ev.panicEv]
  | some (ResolveErr.pongoErr false) => [Ev.resolveAttempt, Ev.panicEv]
  | some ResolveErr.otherErr => [Ev.resolveAttempt, Ev.panicEv]
  | none =>
      match inp.execResult with
      | none => [Ev.resolveAttempt, Ev.ctxBuilt, Ev.execCall, Ev.done]
      | some ExecErr.pongo => [Ev.resolveAttempt, Ev.ctxBuilt, Ev.execCall, Ev.panicEv]
      | some ExecErr.other =>
          [Ev.resolveAttempt, Ev.ctxBuilt, Ev.execCall, Ev.logError, Ev.done]

/-! ## render.go: the JSON helper -/

/-- Go `strconv.ParseBool`: `none` models the error return. -/
def parseBool (s : String) : Option Bool :=
  if s = "1" ∨ s = "t" ∨ s = "T" ∨ s = "true" ∨ s = "TRUE" ∨ s = "True" then some true
  else if s = "0" ∨ s = "f" ∨ s = "F" ∨ s = "false" ∨ s = "FALSE" ∨ s = "False" then some false
  else none

/-- Go `encoding/json`: `NewEncoder` returns an encoder whose
`escapeHTML` field is initialised to `true`. -/
def newEncoderEscapeHTML : Bool := true

/-- The encoder's `escapeHTML` setting after render.go:216-218: the
`JSONEscapeHTML` context value (`none` when absent or not a `bool`) only
triggers `SetEscapeHTML(escape)` when it is `some true`; otherwise the
`NewEncoder` default stands. -/
def jsonEscapeHTMLSetting (ctxFlag : Option Bool) : Bool :=
  match ctxFlag with
  | some escape => if escape then escape else newEncoderEscapeHTML
  | none => newEncoderEscapeHTML

/-- The encoder's pretty-print setting after render.go:220-222:
`pretty, _ := strconv.ParseBool(r.FormValue("pretty"))` discards the error,
leaving `false`. -/
def jsonPrettySetting (prettyFormVal : String) : Bool :=
  (parseBool prettyFormVal).getD false

/-- The Content-Type header the JSON helper sets (render.go:228). -/
def jsonContentType : String := "application/json"

/-! ## render.go: FileServer -/

/-- A route registration made through `Router.Get`. -/
inductive HandlerKind : Type
  | redirectPermanent (target : List Char)
  | fileServe
deriving DecidableEq

/-- What `FileServer` does: panic on a wildcard prefix, panic on the
out-of-range index for the empty prefix, or register routes. -/
inductive RouteAction : Type
  | panicConfig
  | panicIndex
  | routes (regs : List (List Char × HandlerKind))
deriving DecidableEq

/-- `FileServer` from render.go:184-200 as the sequence of registrations it
performs on the router: reject prefixes containing `{`, `}` or `*`; for a
prefix that is neither `/` nor `/`-terminated, first register a permanent
redirect from the prefix to the prefix plus `/`, then register the serving
handler at the prefix plus `/` plus `*`; otherwise only register the
serving handler at the prefix plus `*`.  (On the empty prefix the Go code
indexes `path[len(path)-1]` out of range.) -/
def FileServer (path : List Char) : RouteAction :=
  if path.any (fun c => c = '{' ∨ c = '}' ∨ c = '*') then RouteAction.panicConfig
  else
    match path.getLast? with
    | none => RouteAction.panicIndex
    | some c =>
        if path ≠ ['/'] ∧ c ≠ '/' then
          RouteAction.routes
            [(path, HandlerKind.redirectPermanent (path ++ ['/'])),
             (path ++ ['/', '*'], HandlerKind.fileServe)]
        else RouteAction.routes [(path ++ ['*'], HandlerKind.fileServe)]

/-! ### Theorems about next.go -/

/-- Claim C2: `GetNextURL` returns either the empty string or a string whose
first character is `/`, for every pair of request-derived values. -/
theorem getNextURL_empty_or_slash (q f : List Char) :
    GetNextURL q f = [] ∨ (GetNextURL q f).head? = some '/' := by
  unfold GetNextURL
  set next := if q = [] then f else q with hnext
  by_cases h : next = []
  · left; simp [h]
  · rw [if_neg h]
    cases hu : queryUnescape next with
    | some qn =>
        by_cases hs : startsWithSlash qn
        · right; simp only [hs, not_true_eq_false, if_false]
          simpa [startsWithSlash] using hs
        · left; simp [hs]
    | none =>
        by_cases hs : startsWithSlash next
        · right; simp only [hs, not_true_eq_false, if_false]
          simpa [startsWithSlash] using hs
        · left; simp [hs]

/-- Claim C1 (failing input): for a request whose `next` query parameter
carries the raw value `%2F%2Fevil.com` (which percent-decodes to
`//evil.com`), `GetNextURL` returns `//evil.com` — a protocol-relative
URL starting with `//` — and not the empty string the claim requires. -/
theorem getNextURL_returns_protocol_relative :
    GetNextURLFromRaw ("%2F%2Fevil.com".toList) [] = "//evil.com".toList ∧
      ("//evil.com".toList).take 2 = ['/', '/'] := by
  constructor <;> decide

/-- Claim C6: when the merged parameter value is non-empty and
percent-decodes successfully to a value that does not start with `/`,
`GetNextURL` returns the empty string — the raw value is not used as a
fallback. -/
theorem getNextURL_decoded_no_slash_rejected (q f d : List Char)
    (hne : (if q = [] then f else q) ≠ [])
    (hdec : queryUnescape (if q = [] then f else q) = some d)
    (hpre : startsWithSlash d = false) :
    GetNextURL q f = [] := by
  unfold GetNextURL
  rw [if_neg hne, hdec]
  simp [hpre]

/-- Witness for C6 at the concrete query value `abc`: it decodes to `abc`,
which lacks the `/` prefix, so the result is empty. -/
theorem getNextURL_decoded_no_slash_rejected_witness :
    GetNextURL ("abc".toList) [] = [] :=
  getNextURL_decoded_no_slash_rejected ("abc".toList) [] ("abc".toList)
    (by decide) (by decide) (by decide)

/-- Claim C10: the parameter value is percent-decoded twice — once by URL
query parsing and once by the explicit `QueryUnescape` call — so a
doubly-encoded raw query value whose double decoding yields a `/`-prefixed
path resolves to that fully decoded path. -/
theorem getNextURL_double_decode (raw f v w : List Char)
    (h1 : queryUnescape raw = some v) (h2 : v ≠ [])
    (h3 : queryUnescape v = some w) (h4 : startsWithSlash w = true) :
    GetNextURLFromRaw raw f = w := by
  unfold GetNextURLFromRaw GetNextURL
  rw [h1]
  simp only [Option.getD_some]
  rw [if_neg h2, if_neg h2, h3]
  simp [h4]

/-- Witness for C10: the raw query value `%252Fpath` (doubly encoded)
resolves to the fully decoded `/path`. -/
theorem getNextURL_double_decode_witness :
    GetNextURLFromRaw ("%252Fpath".toList) [] = "/path".toList :=
  getNextURL_double_decode ("%252Fpath".toList) [] ("%2Fpath".toList)
    ("/path".toList) (by decide) (by decide) (by decide) (by decide)

/-! ### Map lemmas for the context merge -/

section CtxLemmas

variable {V : Type}

theorem ctxGet_ctxSet_self (m : CtxMap V) (k : String) (v : V) :
    ctxGet (ctxSet m k v) k = some v := by
  induction m with
  | nil => simp [ctxSet, ctxGet]
  | cons kv rest ih =>
      obtain ⟨k', v'⟩ := kv
      by_cases h : k' = k
      · simp [ctxSet, ctxGet, h]
      · simp [ctxSet, ctxGet, h, ih]

theorem ctxGet_ctxSet_ne (m : CtxMap V) {k k' : String} (v : V) (h : k ≠ k') :
    ctxGet (ctxSet m k v) k' = ctxGet m k' := by
  induction m with
  | nil => simp [ctxSet, ctxGet, h]
  | cons kv rest ih =>
      obtain ⟨k0, v0⟩ := kv
      by_cases h0 : k0 = k
      · subst h0; simp [ctxSet, ctxGet, h]
      · simp [ctxSet, ctxGet, h0, ih]

theorem ctxGet_eq_none_of_not_mem (m : CtxMap V) {k : String}
    (h : k ∉ ctxKeys m) : ctxGet m k = none := by
  induction m with
  | nil => rfl
  | cons kv rest ih =>
      obtain ⟨k0, v0⟩ := kv
      simp only [ctxKeys, List.map_cons, List.mem_cons, not_or] at h
      have hne : k0 ≠ k := fun e => h.1 e.symm
      simp only [ctxGet, if_neg hne]
      exact ih (by simpa [ctxKeys] using h.2)

theorem ctxMerge_cons (dc : CtxMap V) (kv : String × V) (rest : CtxMap V) :
    ctxMerge dc (kv :: rest) = ctxMerge (ctxSet dc kv.1 kv.2) rest := rfl

theorem ctxGet_ctxMerge_of_none (rc : CtxMap V) {k : String}
    (h : ctxGet rc k = none) (dc : CtxMap V) :
    ctxGet (ctxMerge dc rc) k = ctxGet dc k := by
  induction rc generalizing dc with
  | nil => rfl
  | cons kv rest ih =>
      obtain ⟨k0, v0⟩ := kv
      simp only [ctxGet] at h
      by_cases h0 : k0 = k
      · simp [h0] at h
      · rw [if_neg h0] at h
        rw [ctxMerge_cons, ih h, ctxGet_ctxSet_ne _ _ h0]

theorem ctxGet_ctxMerge_of_some (rc : CtxMap V) {k : String} {v : V}
    (hnd : (ctxKeys rc).Nodup) (h : ctxGet rc k = some v) (dc : CtxMap V) :
    ctxGet (ctxMerge dc rc) k = some v := by
  induction rc generalizing dc with
  | nil => simp [ctxGet] at h
  | cons kv rest ih =>
      obtain ⟨k0, v0⟩ := kv
      simp only [ctxKeys, List.map_cons, List.nodup_cons] at hnd
      simp only [ctxGet] at h
      by_cases h0 : k0 = k
      · rw [if_pos h0] at h
        obtain rfl := Option.some.inj h
        have hrest : ctxGet rest k = none := by
          apply ctxGet_eq_none_of_not_mem
          rw [← h0]
          simpa [ctxKeys] using hnd.1
        rw [ctxMerge_cons, ctxGet_ctxMerge_of_none rest hrest, ← h0,
          ctxGet_ctxSet_self]
      · rw [if_neg h0] at h
        rw [ctxMerge_cons]
        exact ih hnd.2 h _

theorem ctxGet_injectDefaults_of_some (ctx : CtxMap V) {k : String} {v : V}
    (u t : V) (h : ctxGet ctx k = some v) :
    ctxGet (injectDefaults ctx u t) k = some v := by
  unfold injectDefaults
  by_cases hu : (ctxGet ctx "url").isSome
  · simp only [hu, if_true]
    by_cases hc : (ctxGet ctx "cachets").isSome
    · simpa [hc] using h
    · simp only [hc, Bool.false_eq_true, if_false]
      by_cases hk : k = "cachets"
      · subst hk; rw [h] at hc; simp at hc
      · rw [ctxGet_ctxSet_ne _ _ (Ne.symm hk)]; exact h
  · simp only [hu, Bool.false_eq_true, if_false]
    by_cases hk : k = "url"
    · subst hk; rw [h] at hu; simp at hu
    · have h1 : ctxGet (ctxSet ctx "url" u) k = some v := by
        rw [ctxGet_ctxSet_ne _ _ (Ne.symm hk)]; exact h
      by_cases hc : (ctxGet (ctxSet ctx "url" u) "cachets").isSome
      · simpa [hc] using h1
      · simp only [hc, Bool.false_eq_true, if_false]
        by_cases hk2 : k = "cachets"
        · subst hk2; rw [h1] at hc; simp at hc
        · rw [ctxGet_ctxSet_ne _ _ (Ne.symm hk2)]; exact h1

theorem ctxGet_injectDefaults_url_absent (ctx : CtxMap V) (u t : V)
    (h : ctxGet ctx "url" = none) :
    ctxGet (injectDefaults ctx u t) "url" = some u := by
  unfold injectDefaults
  simp only [h, Option.isSome_none, Bool.false_eq_true, if_false]
  have h1 : ctxGet (ctxSet ctx "url" u) "url" = some u := ctxGet_ctxSet_self _ _ _
  by_cases hc : (ctxGet (ctxSet ctx "url" u) "cachets").isSome
  · simpa [hc] using h1
  · simp only [hc, Bool.false_eq_true, if_false]
    rw [ctxGet_ctxSet_ne _ _ (by decide)]
    exact h1

theorem ctxGet_injectDefaults_cachets_absent (ctx : CtxMap V) (u t : V)
    (h : ctxGet ctx "cachets" = none) :
    ctxGet (injectDefaults ctx u t) "cachets" = some t := by
  unfold injectDefaults
  by_cases hu : (ctxGet ctx "url").isSome
  · simp only [hu, if_true, h, Option.isSome_none, Bool.false_eq_true, if_false]
    exact ctxGet_ctxSet_self _ _ _
  · simp only [hu, Bool.false_eq_true, if_false]
    have h1 : ctxGet (ctxSet ctx "url" u) "cachets" = none := by
      rw [ctxGet_ctxSet_ne _ _ (by decide)]; exact h
    simp only [h1, Option.isSome_none, Bool.false_eq_true, if_false]
    exact ctxGet_ctxSet_self _ _ _

end CtxLemmas

/-! ### Theorems about the Render context merge -/

/-- Claim C3: the effective render context gives strict precedence to the
explicit context — every key of the explicit map keeps its explicit value —
keys of the merged explicit/default contexts all survive, and the system
defaults `url` and `cachets` are injected exactly for keys absent after
that merge. -/
theorem render_ctx_precedence {V : Type} (dctxRes : Option (CtxMap V))
    (rctx : CtxMap V) (urlV tsV : V) (hnd : (ctxKeys rctx).Nodup) :
    (∀ k v, ctxGet rctx k = some v →
        ctxGet (buildCtx dctxRes (some rctx) urlV tsV) k = some v) ∧
    (∀ k v, ctxGet (mergedCtx dctxRes (some rctx)) k = some v →
        ctxGet (buildCtx dctxRes (some rctx) urlV tsV) k = some v) ∧
    (ctxGet (mergedCtx dctxRes (some rctx)) "url" = none →
        ctxGet (buildCtx dctxRes (some rctx) urlV tsV) "url" = some urlV) ∧
    (ctxGet (mergedCtx dctxRes (some rctx)) "cachets" = none →
        ctxGet (buildCtx dctxRes (some rctx) urlV tsV) "cachets" = some tsV) := by
  refine ⟨?_, ?_, ?_, ?_⟩
  · intro k v h
    have hm : ctxGet (mergedCtx dctxRes (some rctx)) k = some v := by
      cases dctxRes with
      | none => exact h
      | some dc => exact ctxGet_ctxMerge_of_some rctx hnd h dc
    exact ctxGet_injectDefaults_of_some _ _ _ hm
  · intro k v h
    exact ctxGet_injectDefaults_of_some _ _ _ h
  · intro h
    exact ctxGet_injectDefaults_url_absent _ _ _ h
  · intro h
    exact ctxGet_injectDefaults_cachets_absent _ _ _ h

/-- Witness for C3: with default context `{cachets: 999}` and explicit
context `{url: 7}`, the explicit `url` survives (the system `url` is not
injected) and the default `cachets` survives (the system `cachets` is not
injected). -/
theorem render_ctx_precedence_witness :
    ctxGet (buildCtx (V := Nat) (some [("cachets", 999)]) (some [("url", 7)]) 1 2)
        "url" = some 7 ∧
    ctxGet (buildCtx (V := Nat) (some [("cachets", 999)]) (some [("url", 7)]) 1 2)
        "cachets" = some 999 := by
  have h := render_ctx_precedence (V := Nat) (some [("cachets", 999)])
    [("url", 7)] 1 2 (by decide)
  exact ⟨h.1 "url" 7 (by decide), h.2.1 "cachets" 999 (by decide)⟩

/-! ### Heap lemmas for the in-place-mutation claim -/

section HeapLemmas

variable {V : Type}

theorem Heap.read_write_self (h : Heap V) (r : Nat) (m : CtxMap V)
    (hr : r < h.store.length) : (h.write r m).read r = m := by
  unfold Heap.read Heap.write
  simp [List.getElem?_set_eq_of_lt _ hr]

theorem Heap.length_write (h : Heap V) (r : Nat) (m : CtxMap V) :
    (h.write r m).store.length = h.store.length := by
  unfold Heap.write
  simp

theorem heapCtxSet_read_self (h : Heap V) (r : Nat) (k : String) (v : V)
    (hr : r < h.store.length) :
    (heapCtxSet h r k v).read r = ctxSet (h.read r) k v := by
  unfold heapCtxSet
  exact Heap.read_write_self _ _ _ hr

theorem heapCtxSet_length (h : Heap V) (r : Nat) (k : String) (v : V) :
    (heapCtxSet h r k v).store.length = h.store.length :=
  Heap.length_write _ _ _

theorem heapInject_read (h : Heap V) (r : Nat) (u t : V)
    (hr : r < h.store.length) :
    (heapInject h r u t).read r = injectDefaults (h.read r) u t := by
  unfold heapInject injectDefaults
  by_cases hu : (ctxGet (h.read r) "url").isSome
  · simp only [hu, if_true]
    by_cases hc : (ctxGet (h.read r) "cachets").isSome
    · simp [hc]
    · simp only [hc, Bool.false_eq_true, if_false]
      exact heapCtxSet_read_self _ _ _ _ hr
  · simp only [hu, Bool.false_eq_true, if_false]
    rw [heapCtxSet_read_self _ _ _ _ hr]
    by_cases hc : (ctxGet (ctxSet (h.read r) "url" u) "cachets").isSome
    · simp only [hc, if_true]
      exact heapCtxSet_read_self _ _ _ _ hr
    · simp only [hc, Bool.false_eq_true, if_false]
      rw [heapCtxSet_read_self _ _ _ _ (by rw [heapCtxSet_length]; exact hr),
        heapCtxSet_read_self _ _ _ _ hr]

theorem heapMergeFold_length (l : List (String × V)) (h : Heap V) (dr : Nat) :
    (l.foldl (fun hh kv => heapCtxSet hh dr kv.1 kv.2) h).store.length
      = h.store.length := by
  induction l generalizing h with
  | nil => rfl
  | cons kv rest ih => rw [List.foldl_cons, ih, heapCtxSet_length]

theorem heapMergeFold_read (l : List (String × V)) (h : Heap V) (dr : Nat)
    (hdr : dr < h.store.length) :
    (l.foldl (fun hh kv => heapCtxSet hh dr kv.1 kv.2) h).read dr
      = ctxMerge (h.read dr) l := by
  induction l generalizing h with
  | nil => rfl
  | cons kv rest ih =>
      rw [List.foldl_cons,
        ih (heapCtxSet h dr kv.1 kv.2) (by rw [heapCtxSet_length]; exact hdr),
        heapCtxSet_read_self _ _ _ _ hdr, ctxMerge_cons]

end HeapLemmas

/-! ### Theorem about Go map reference semantics in Render -/

/-- Claim C9: when no default context is available (no `DefaultCtx`
function, or it returned nil) and a non-nil explicit map is passed, the
context phase of `Render` uses the caller's map itself as the effective
context — the returned handle is the caller's, and the injected `url` and
`cachets` land in the map behind the caller's handle; symmetrically, when
`DefaultCtx` returns a non-nil map, that returned map's handle is used and
the explicit entries are written into it. -/
theorem render_ctx_in_place {V : Type} (h : Heap V) (rr dr : Nat) (u t : V)
    (hrr : rr < h.store.length) (hdr : dr < h.store.length) :
    ((renderBuildCtx h none (some rr) u t).2 = rr ∧
      (renderBuildCtx h none (some rr) u t).1.read rr
        = injectDefaults (h.read rr) u t) ∧
    ((renderBuildCtx h (some dr) (some rr) u t).2 = dr ∧
      (renderBuildCtx h (some dr) (some rr) u t).1.read dr
        = injectDefaults (ctxMerge (h.read dr) (h.read rr)) u t) := by
  refine ⟨⟨rfl, heapInject_read h rr u t hrr⟩, rfl, ?_⟩
  show (heapInject ((h.read rr).foldl
      (fun hh kv => heapCtxSet hh dr kv.1 kv.2) h) dr u t).read dr = _
  rw [heapInject_read _ dr u t (by rw [heapMergeFold_length]; exact hdr),
    heapMergeFold_read _ _ _ hdr]

/-- Witness for C9: in a two-map heap, passing the handle of the first map
as the explicit context with no default context returns that same handle,
and the map behind it now carries the injected defaults. -/
theorem render_ctx_in_place_witness :
    (renderBuildCtx (V := Nat) ⟨[[("a", 1)], [("b", 2)]]⟩ none (some 0) 5 6).2 = 0 ∧
    (renderBuildCtx (V := Nat) ⟨[[("a", 1)], [("b", 2)]]⟩ none (some 0) 5 6).1.read 0
      = [("a", 1), ("url", 5), ("cachets", 6)] := by
  have hh := render_ctx_in_place (V := Nat) ⟨[[("a", 1)], [("b", 2)]]⟩ 0 1 5 6
    (by decide) (by decide)
  refine ⟨hh.1.1, ?_⟩
  rw [hh.1.2]
  decide

/-! ### Theorems about the Render error routing -/

/-- Claim C4: when template resolution fails with a `*pongo2.Error` whose
original error is file-does-not-exist, `Render` invokes the configured
not-found handler and returns without building a context or executing a
template; without a configured handler it panics. -/
theorem render_notfound_routing (ex : Option ExecErr) :
    (renderTrace ⟨some (ResolveErr.pongoErr true), true, ex⟩
        = [Ev.resolveAttempt, Ev.notFoundCall] ∧
      Ev.ctxBuilt ∉ renderTrace ⟨some (ResolveErr.pongoErr true), true, ex⟩ ∧
      Ev.execCall ∉ renderTrace ⟨some (ResolveErr.pongoErr true), true, ex⟩) ∧
    renderTrace ⟨some (ResolveErr.pongoErr true), false, ex⟩
      = [Ev.resolveAttempt, Ev.panicEv] := by
  refine ⟨⟨rfl, ?_, ?_⟩, rfl⟩
  · show Ev.ctxBuilt ∉ [Ev.resolveAttempt, Ev.notFoundCall]
    decide
  · show Ev.execCall ∉ [Ev.resolveAttempt, Ev.notFoundCall]
    decide

/-- Claim C5: when `ExecuteWriter` fails with a `*pongo2.Error` the render
call panics; for any other execution error the error is written to the
`ErrorLogger` and the call returns normally, without panicking. -/
theorem render_exec_error_routing (hnf : Bool) :
    renderTrace ⟨none, hnf, some ExecErr.pongo⟩
      = [Ev.resolveAttempt, Ev.ctxBuilt, Ev.execCall, Ev.panicEv] ∧
    (renderTrace ⟨none, hnf, some ExecErr.other⟩
        = [Ev.resolveAttempt, Ev.ctxBuilt, Ev.execCall, Ev.logError, Ev.done] ∧
      Ev.panicEv ∉ renderTrace ⟨none, hnf, some ExecErr.other⟩) := by
  refine ⟨rfl, rfl, ?_⟩
  show Ev.panicEv ∉ [Ev.resolveAttempt, Ev.ctxBuilt, Ev.execCall, Ev.logError, Ev.done]
  decide

/-! ### Theorem about the JSON helper -/

/-- Claim C7 (failing behaviour): the helper does set the
`application/json` content type and does pretty-print exactly when the
`pretty` form value parses as boolean true, but HTML escaping is *always*
on: `json.NewEncoder`'s default is `escapeHTML = true` and the code only
ever calls `SetEscapeHTML(true)` (when the flag is `some true`), never
`SetEscapeHTML(false)` — so with the flag absent (or `false`) the output
is still HTML-escaped, contradicting the claim (and the code's own doc
comment, which promises no escaping by default). -/
theorem json_escape_always_on :
    jsonEscapeHTMLSetting none = true ∧
    jsonEscapeHTMLSetting (some false) = true ∧
    jsonEscapeHTMLSetting (some true) = true ∧
    jsonContentType = "application/json" ∧
    jsonPrettySetting "true" = true ∧
    jsonPrettySetting "1" = true ∧
    jsonPrettySetting "" = false ∧
    jsonPrettySetting "yes" = false := by
  refine ⟨rfl, rfl, rfl, rfl, ?_, ?_, ?_, ?_⟩ <;> decide

/-! ### Theorem about FileServer -/

/-- Claim C8: `FileServer` panics on any prefix containing `{`, `}` or
`*`; for a valid prefix that is neither `/` nor `/`-terminated it first
registers a permanent redirect from the prefix to the prefix plus `/`,
then registers the file-serving handler at the prefix followed by `/*`. -/
theorem fileServer_registrations (path : List Char) (c : Char)
    (hclean : path.any (fun ch => ch = '{' ∨ ch = '}' ∨ ch = '*') = false)
    (hlast : path.getLast? = some c) (hslash : c ≠ '/') (hroot : path ≠ ['/']) :
    FileServer path
      = RouteAction.routes
          [(path, HandlerKind.redirectPermanent (path ++ ['/'])),
            (path ++ ['/', '*'], HandlerKind.fileServe)] ∧
    ∀ q : List Char, q.any (fun ch => ch = '{' ∨ ch = '}' ∨ ch = '*') = true →
      FileServer q = RouteAction.panicConfig := by
  constructor
  · unfold FileServer
    rw [hclean]
    simp only [Bool.false_eq_true, if_false]
    rw [hlast]
    dsimp only
    rw [if_pos ⟨hroot, hslash⟩]
  · intro q hq
    unfold FileServer
    rw [hq]
    simp

/-- Witness for C8: mounting `/static` registers the permanent redirect
`/static` to `/static/` and the serving route `/static/*`, while the
prefix `/static/{id}` is rejected. -/
theorem fileServer_registrations_witness :
    FileServer ("/static".toList)
      = RouteAction.routes
          [("/static".toList, HandlerKind.redirectPermanent ("/static/".toList)),
            ("/static/*".toList, HandlerKind.fileServe)] ∧
    FileServer ("/static/{id}".toList) = RouteAction.panicConfig := by
  have h := fileServer_registrations ("/static".toList) 'c' (by decide)
    (by decide) (by decide) (by decide)
  refine ⟨?_, h.2 _ (by decide)⟩
  rw [h.1]
  decide

end Pt
